import Mathlib

/-!
Shallow embedding of the `amdump` package (src/amdump/articlemeta.py and
src/amdump/http.py): the resilient HTTP client with retry, the download
pipeline, and the Dumper orchestrator's watermark handling.

Files on disk are modelled as functions from path to optional contents;
byte strings as `List Nat`; the network as an explicit `fetch` function.
-/

namespace Amdump

/-- Byte strings (payloads) are lists of byte values. -/
abbrev Bytes := List Nat

/-- A filesystem: maps a path to the contents of the file stored there,
`none` when no file exists at that path. -/
abbrev FS := String → Option Bytes

/-- `FIRST_PUBLICATION_DATE = "1900-01-01"` (src/amdump/articlemeta.py line 21). -/
def FIRST_PUBLICATION_DATE : String := "1900-01-01"

/-- Model of `download_doc(url, dest, pill, overwrite=False, preserve_null=False)`
(src/amdump/articlemeta.py lines 38-57), acting on a filesystem `fs`.
`fetch` models `http.get`; `poisoned` is the value of `pill.poisoned` read at
entry. The result is the filesystem after the call together with the number of
network calls performed. Branches, in source order:
1. `if pill.poisoned: return` — no I/O at all;
2. `if not overwrite and os.path.exists(dest): return` — skip, no network call;
3. `content = http.get(url)` — one network call;
4. `if not preserve_null and len(content) == 4: return` — discard, no file;
5. `open(dest, "wb").write(content)` — write the payload verbatim. -/
def download_doc (fetch : String → Bytes) (url dest : String)
    (poisoned overwrite preserve_null : Bool) (fs : FS) : FS × Nat :=
  if poisoned then (fs, 0)
  else if !overwrite && (fs dest).isSome then (fs, 0)
  else
    let content := fetch url
    if !preserve_null && (content.length == 4) then (fs, 1)
    else ((fun p => if p = dest then some content else fs p), 1)

/-- Default value of the keyword argument `preserve_null` of `download_doc`
(src/amdump/articlemeta.py line 39: `preserve_null=False`). -/
def download_doc_preserve_null_default : Bool := false

/-- Default value of the keyword argument `preservenull` of the pipeline
entry point `dump` (src/amdump/articlemeta.py line 91: `preservenull=True`),
forwarded to every task as `preserve_null=preservenull`. -/
def dump_preservenull_default : Bool := true

/-- Default value of the keyword argument `overwrite` of `dump`
(src/amdump/articlemeta.py line 91: `overwrite=False`). -/
def dump_overwrite_default : Bool := false

/-- Model of the download pipeline `dump` (src/amdump/articlemeta.py lines
90-144) restricted to its filesystem/network effect: every `(url, dest)` task
is executed by `download_doc` with a fresh, unpoisoned pill. Tasks target
distinct destination files in the source, so the concurrent execution's
effect on the file set equals this sequential fold; the result pairs the
final filesystem with the total number of network calls. -/
def dump (fetch : String → Bytes) (overwrite preserve_null : Bool) :
    List (String × String) → FS → FS × Nat
  | [], fs => (fs, 0)
  | (url, dest) :: rest, fs =>
    let r := download_doc fetch url dest false overwrite preserve_null fs
    let rr := dump fetch overwrite preserve_null rest r.1
    (rr.1, r.2 + rr.2)

/-- A filesystem of text files (the watermark and list files hold strings). -/
abbrev TextFS := String → Option String

/-- Model of the `Dumper.from_date` property (src/amdump/articlemeta.py lines
234-239): if `self.last_filepath` exists as a file, return its verbatim
contents, else return `self.default_from_date` (the `from_date` constructor
argument stored at line 187). -/
def from_date (fs : TextFS) (last_filepath default_from_date : String) : String :=
  match fs last_filepath with
  | some contents => contents
  | none => default_from_date

/-- Model of the final block of `Dumper.dump_json` (src/amdump/articlemeta.py
lines 203-204): `with open(self.last_filepath, "w") as last_file:
last_file.write(self._dates[-1])`. Opening in mode "w" truncates the file
at `path` to empty immediately; then `self._dates[-1]` is evaluated: on an
empty list this raises IndexError (modelled by the Boolean `false` in the
second component) leaving the truncated file behind, otherwise the last
element of `dates` is written. -/
def dump_json_write_lastdate (dates : List String) (path : String) (fs : TextFS) :
    TextFS × Bool :=
  let truncated : TextFS := fun p => if p = path then some "" else fs p
  match dates.getLast? with
  | some d => ((fun p => if p = path then some d else truncated p), true)
  | none => (truncated, false)

/-- Model of `Dumper._download_pids` (src/amdump/articlemeta.py lines 241-245)
applied to the finite sequence `docs` of `(code, processing_date)` pairs that
`iter_docs` yields in this run: it appends each pair's processing date to
`self._dates` in yield order and yields each code stripped. Returns
(pids yielded, final value of `self._dates`). -/
def download_pids (docs : List (String × String)) : List String × List String :=
  (docs.map (fun d => d.1.trim), docs.map (fun d => d.2))

/-- Lexicographic order on character lists, the order underlying string
comparison of zero-padded ISO dates (spec: "opaque ISO-8601
lexicographically-comparable strings"). -/
def charListLe : List Char → List Char → Bool
  | [], _ => true
  | _ :: _, [] => false
  | a :: as, b :: bs => if a < b then true else if b < a then false else charListLe as bs

/-- String comparison of two ISO date strings (lexicographic on characters). -/
def dateLe (a b : String) : Bool := charListLe a.data b.data

/-- The later of two ISO date strings under string comparison. -/
def dateMax (a b : String) : String := if dateLe a b then b else a

/-- The list of processing dates is in non-decreasing string order. -/
def datesSorted : List String → Bool
  | [] => true
  | [_] => true
  | a :: b :: rest => dateLe a b && datesSorted (b :: rest)

/-- Modelled from the spec: "advance the watermark to the maximum
processing-date observed in step 2". The maximum of the processing dates in
enumeration order, under the string (lexicographic) order the spec prescribes
for ISO dates; `none` on an empty enumeration. This is the spec-side value
that claim C1 compares against the implementation's watermark. -/
def specMaxDate : List String → Option String
  | [] => none
  | d :: rest => some (rest.foldl dateMax d)

end Amdump

namespace AmdumpHttp

/-- `MAX_RETRIES = 4` (src/amdump/http.py line 10). -/
def MAX_RETRIES : Nat := 4

/-- `BACKOFF_FACTOR = 1.9` (src/amdump/http.py line 11), as a rational. -/
def BACKOFF_FACTOR : ℚ := 19 / 10

/-- The kind of exception an attempt raises: `RetryableError`,
`NonRetryableError` (src/amdump/http.py lines 14-19), or any other
exception type. -/
inductive ErrKind where
  | retryable
  | nonRetryable
  | other
deriving DecidableEq, Repr

/-- Outcome of one invocation of the wrapped callable: return a value, or
raise an exception of the given kind. -/
inductive Outcome where
  | ok (v : List Nat)
  | err (e : ErrKind)
deriving DecidableEq, Repr

/-- Result of running the retry wrapper: the wrapped callable's return value,
or the exception that propagated out, together in either case with the list
of sleep durations (in seconds) performed, in order. `outOfFuel` is an
artifact of the fuelled recursion and is unreachable with the fuel
`retry_gracefully` supplies. -/
inductive RunResult where
  | success (v : List Nat) (sleeps : List ℚ)
  | raised (e : ErrKind) (sleeps : List ℚ)
  | outOfFuel
deriving DecidableEq, Repr

/-- The `while True` loop of `retry_gracefully.__call__.wrapper`
(src/amdump/http.py lines 43-65). `op n` is the outcome of the n-th
invocation of `func` (0-based); `caught e` models membership of the
exception's type in `self.exc_list`; `retry` starts at 1. Per iteration:
call `func`; on success return; on an exception in `exc_list`, if
`retry <= max_retries` sleep `backoff_factor ** retry` seconds and loop with
`retry + 1`, else re-raise; an exception outside `exc_list` propagates.
Sleeps are accumulated in reverse in `sleeps`. The loop makes at most
`maxRetries + 1` calls, so any larger fuel makes `outOfFuel` unreachable. -/
def retryLoop (op : Nat → Outcome) (caught : ErrKind → Bool) (backoff : ℚ)
    (maxRetries : Nat) : Nat → Nat → Nat → List ℚ → RunResult
  | 0, _, _, _ => .outOfFuel
  | fuel + 1, attempt, retry, sleeps =>
    match op attempt with
    | .ok v => .success v sleeps.reverse
    | .err e =>
      if caught e then
        if retry ≤ maxRetries then
          retryLoop op caught backoff maxRetries fuel (attempt + 1) (retry + 1)
            (backoff ^ retry :: sleeps)
        else .raised e sleeps.reverse
      else .raised e sleeps.reverse

/-- `retry_gracefully(max_retries, backoff_factor, exc_list)` applied to a
callable (src/amdump/http.py lines 22-67): run the loop with `retry = 1`
and fuel `maxRetries + 1` (an upper bound on the number of calls the loop
can make). -/
def retry_gracefully (op : Nat → Outcome) (caught : ErrKind → Bool)
    (backoff : ℚ) (maxRetries : Nat) : RunResult :=
  retryLoop op caught backoff maxRetries (maxRetries + 1) 0 1 []

/-- The default `exc_list=(RetryableError,)` (src/amdump/http.py line 32):
only `RetryableError` is caught and retried. -/
def defaultCaught : ErrKind → Bool := fun e => e matches .retryable

/-- What one underlying HTTP attempt inside `get` observes: a transport-level
exception from `requests.get`, or a response with a status code and body. -/
inductive HttpEvent where
  | connectionError
  | timeout
  | invalidSchema
  | missingSchema
  | invalidURL
  | otherRequestError
  | response (status : Nat) (body : List Nat)
deriving DecidableEq, Repr

/-- How a single attempt of `get` terminates: return the body, raise
`RetryableError`, raise `NonRetryableError`, or let another exception
propagate unmodified. -/
inductive GetResult where
  | ok (body : List Nat)
  | retryableError
  | nonRetryableError
  | uncaught
deriving DecidableEq, Repr

/-- `requests.Response.raise_for_status` raises `HTTPError` exactly for
status codes in [400, 600) (documented behavior of the requests library,
an external collaborator). -/
def raise_for_status (status : Nat) : Bool :=
  decide (400 ≤ status) && decide (status < 600)

/-- The body of `get(url, timeout)` for a single attempt
(src/amdump/http.py lines 70-93): `ConnectionError`/`Timeout` become
`RetryableError`; `InvalidSchema`/`MissingSchema`/`InvalidURL` become
`NonRetryableError`; any other exception from `requests.get` propagates;
otherwise `raise_for_status()` is called and a resulting `HTTPError` is
mapped to `NonRetryableError` for 4xx, `RetryableError` for 5xx, and
re-raised bare otherwise; with no `HTTPError`, `response.content` is
returned. -/
def get (ev : HttpEvent) : GetResult :=
  match ev with
  | .connectionError => .retryableError
  | .timeout => .retryableError
  | .invalidSchema => .nonRetryableError
  | .missingSchema => .nonRetryableError
  | .invalidURL => .nonRetryableError
  | .otherRequestError => .uncaught
  | .response status body =>
    if raise_for_status status then
      if 400 ≤ status ∧ status < 500 then .nonRetryableError
      else if 500 ≤ status ∧ status < 600 then .retryableError
      else .uncaught
    else .ok body

end AmdumpHttp

namespace Amdump

/-- The writes the source performs on `pill.poisoned` after `PoisonPill`
initializes it to `False` (src/amdump/articlemeta.py lines 29-35): the only
assignment within a run is `pill.poisoned = True` in the KeyboardInterrupt
handler of `dump` (line 137). There is no operation that resets the flag. -/
inductive PillOp where
  | poison
deriving DecidableEq, Repr

/-- Applying a sequence of the available flag writes to the current value of
`pill.poisoned`. -/
def applyPillOps : List PillOp → Bool → Bool
  | [], b => b
  | .poison :: rest, _ => applyPillOps rest true

/-- How one completed future's `result()` call terminates inside the
result-collection loop of `dump`: normal return, `KeyboardInterrupt`, or any
other exception. -/
inductive TaskOut where
  | ok
  | failure
  | interrupt
deriving DecidableEq, Repr

/-- State of the result-collection loop of `dump`
(src/amdump/articlemeta.py lines 125-134): the progress counter advanced by
`pbar.update(1)` and the destination paths logged by
`LOGGER.exception('could not download "%s"', dest_file)`. -/
structure CollectState where
  processed : Nat
  logged : List String
deriving DecidableEq, Repr

/-- The `for future in concurrent.futures.as_completed(...)` loop of `dump`
(src/amdump/articlemeta.py lines 126-134), over the completed tasks in
completion order, each paired with its destination path. Per task:
`pbar.update(1)`; then `future.result()`: a `KeyboardInterrupt` is re-raised,
terminating the loop (second component `false`); any other exception is
logged with the task's destination path and the loop continues. -/
def collectResults : List (String × TaskOut) → CollectState → CollectState × Bool
  | [], st => (st, true)
  | (dest, out) :: rest, st =>
    let st1 : CollectState := ⟨st.processed + 1, st.logged⟩
    match out with
    | .ok => collectResults rest st1
    | .failure => collectResults rest ⟨st1.processed, st1.logged ++ [dest]⟩
    | .interrupt => (st1, false)

/-- The 4-byte body `b"null"` that ArticleMeta returns for nonexistent pids
(comment at src/amdump/articlemeta.py lines 48-49). -/
def nullBytes : Bytes := [110, 117, 108, 108]

/-- The bytes of `{"title":"x"}`, the real document payload of the spec's
two-identifier scenario. -/
def titleXBytes : Bytes := [123, 34, 116, 105, 116, 108, 101, 34, 58, 34, 120, 34, 125]

/-- The mock remote endpoint of the spec's two-identifier scenario: the
document URL for pid001 answers `{"title":"x"}`, the one for pid002 answers
the literal 4 bytes `null`. -/
def scenarioFetch : String → Bytes := fun url =>
  if url = "api/article/?code=pid002" then nullBytes else titleXBytes

/-- The scenario's two download tasks, as (url, destination) pairs. -/
def scenarioTasks : List (String × String) :=
  [("api/article/?code=pid001", "colA/data/pid001.json"),
   ("api/article/?code=pid002", "colA/data/pid002.json")]

end Amdump

open Amdump AmdumpHttp

/-- C3 counterexample: a Dumper whose constructor received
`from_date = "2021-05-05"` and whose watermark file does not exist reads back
"2021-05-05", not the fixed epoch constant "1900-01-01". -/
theorem C3_counterexample_no_file_returns_ctor_date :
    from_date (fun _ => none) "lastdate.txt" "2021-05-05" = "2021-05-05" ∧
    from_date (fun _ => none) "lastdate.txt" "2021-05-05" ≠ FIRST_PUBLICATION_DATE :=
  ⟨rfl, by decide⟩

/-- C3 (amended): reading the watermark returns the constructor-supplied
default from-date when no watermark file exists on disk (the repository's
`FIRST_PUBLICATION_DATE` constant "1900-01-01" is one value a caller may
pass, but nothing forces it), and otherwise returns the watermark file's
verbatim contents. -/
theorem C3_amended_from_date_contract (fs : TextFS) (path d : String) :
    (fs path = none → from_date fs path d = d) ∧
    ∀ s, fs path = some s → from_date fs path d = s := by
  constructor
  · intro h; simp [from_date, h]
  · intro s h; simp [from_date, h]

theorem C3_amended_from_date_contract_witness :
    from_date (fun _ => none) "lastdate.txt" "1900-01-01" = "1900-01-01" ∧
    from_date (fun p => if p = "lastdate.txt" then some "2020-03-04" else none)
      "lastdate.txt" "1900-01-01" = "2020-03-04" :=
  ⟨(C3_amended_from_date_contract (fun _ => none) "lastdate.txt" "1900-01-01").1 rfl,
   (C3_amended_from_date_contract (fun p => if p = "lastdate.txt" then some "2020-03-04" else none)
      "lastdate.txt" "1900-01-01").2 "2020-03-04" (by decide)⟩

/-- C4: when `dump_json` runs with an empty recorded-dates list, the
watermark file is truncated to empty by the write-mode open before indexing
`self._dates[-1]` raises; the failed run leaves the watermark file changed
(its previous contents are lost). -/
theorem C4_empty_dates_truncate_watermark (fs : TextFS) (path prev : String)
    (hprev : fs path = some prev) (hne : prev ≠ "") :
    (dump_json_write_lastdate [] path fs).1 path = some "" ∧
    (dump_json_write_lastdate [] path fs).2 = false ∧
    (dump_json_write_lastdate [] path fs).1 path ≠ fs path := by
  refine ⟨by simp [dump_json_write_lastdate], rfl, ?_⟩
  simp only [dump_json_write_lastdate, List.getLast?_nil, hprev, if_pos rfl]
  intro h
  exact hne (Option.some.inj h).symm

theorem C4_empty_dates_truncate_watermark_witness :
    (dump_json_write_lastdate [] "lastdate.txt" (fun _ => some "2020-01-01")).1 "lastdate.txt"
      = some "" ∧
    (dump_json_write_lastdate [] "lastdate.txt" (fun _ => some "2020-01-01")).2 = false ∧
    (dump_json_write_lastdate [] "lastdate.txt" (fun _ => some "2020-01-01")).1 "lastdate.txt"
      ≠ (fun _ => some "2020-01-01") "lastdate.txt" :=
  C4_empty_dates_truncate_watermark (fun _ => some "2020-01-01") "lastdate.txt" "2020-01-01"
    rfl (by decide)

theorem applyPillOps_true (ops : List PillOp) : applyPillOps ops true = true := by
  induction ops with
  | nil => rfl
  | cons op rest ih => cases op; exact ih

/-- C8: a task that observes the poison flag set returns at once — the
filesystem is untouched, no network call happens, and no error is raised
(the model is total on this branch); and once `pill.poisoned` is true, no
sequence of the writes available in a run ever resets it, so every task
reading the flag afterwards takes the same do-nothing branch. -/
theorem C8_poison_flag_halts_tasks_and_is_never_reset :
    (∀ (fetch : String → Bytes) (url dest : String) (overwrite preserve_null : Bool) (fs : FS),
        download_doc fetch url dest true overwrite preserve_null fs = (fs, 0)) ∧
    (∀ (ops : List PillOp) (b : Bool), applyPillOps (PillOp.poison :: ops) b = true) :=
  ⟨fun _ _ _ _ _ _ => rfl, fun ops _ => applyPillOps_true ops⟩

/-- C10: with `preserve_null=False`, a task that reaches the fetch step
discards every payload of length exactly 4 — the test is on the length
only, not on the content being `b"null"` — so no destination file is
written even for a legitimate 4-byte body. -/
theorem C10_any_four_byte_payload_discarded (fetch : String → Bytes)
    (url dest : String) (overwrite : Bool) (fs : FS)
    (hreach : overwrite = true ∨ fs dest = none)
    (hlen : (fetch url).length = 4) :
    download_doc fetch url dest false overwrite false fs = (fs, 1) := by
  unfold download_doc
  rcases hreach with h | h <;> simp [h, hlen]

theorem C10_any_four_byte_payload_discarded_witness :
    download_doc (fun _ => [116, 114, 117, 101]) "api/article/?code=pid9"
        "colA/data/pid9.json" false false false (fun _ => none)
      = ((fun _ => none : FS), 1) :=
  C10_any_four_byte_payload_discarded (fun _ => [116, 114, 117, 101])
    "api/article/?code=pid9" "colA/data/pid9.json" false (fun _ => none)
    (Or.inr rfl) rfl


/-- C2 counterexample: in the spec's two-identifier scenario run through the
pipeline `dump` with its own default options (`overwrite=False`,
`preservenull=True`), the 4-byte `b"null"` payload of pid002 is NOT
suppressed: a destination file holding `b"null"` is created for it. -/
theorem C2_counterexample_default_options_write_null :
    (dump scenarioFetch dump_overwrite_default dump_preservenull_default
        scenarioTasks (fun _ => none)).1 "colA/data/pid002.json" = some nullBytes ∧
    nullBytes.length = 4 :=
  ⟨rfl, rfl⟩

/-- C2 (amended): the `b"null"` payload is suppressed only when the pipeline
is invoked with `preservenull=False` (which is `download_doc`'s own default
but not `dump`'s): under `dump`'s defaults the value forwarded is
`preservenull=True` and the null payload is written, while with
`preservenull=False` the scenario yields exactly one file — the real
document for pid001 — and none for pid002. -/
theorem C2_amended_null_suppressed_only_when_preservenull_false (p : String) :
    dump_preservenull_default = true ∧
    (dump scenarioFetch dump_overwrite_default false scenarioTasks (fun _ => none)).1 p
      = if p = "colA/data/pid001.json" then some titleXBytes else none :=
  ⟨rfl, rfl⟩

/-- C1 counterexample: a run whose enumeration yields the pairs
(pidA, "2020-01-02") then (pidB, "2020-01-01") persists "2020-01-01" —
`self._dates[-1]`, the last date yielded — although the maximum
processing-date observed is "2020-01-02". -/
theorem C1_counterexample_watermark_is_not_max :
    (dump_json_write_lastdate
        (download_pids [("pidA", "2020-01-02"), ("pidB", "2020-01-01")]).2
        "lastdate.txt" (fun _ => none)).1 "lastdate.txt" = some "2020-01-01" ∧
    specMaxDate (download_pids [("pidA", "2020-01-02"), ("pidB", "2020-01-01")]).2
      = some "2020-01-02" ∧
    ("2020-01-01" : String) ≠ "2020-01-02" :=
  ⟨rfl, by decide, by decide⟩

theorem specMaxDate_sorted (l : List String) (h : datesSorted l = true) :
    specMaxDate l = l.getLast? := by
  induction l with
  | nil => rfl
  | cons d rest ih =>
    cases rest with
    | nil => rfl
    | cons e rest2 =>
      have h1 : dateLe d e = true := by
        simp only [datesSorted, Bool.and_eq_true] at h
        exact h.1
      have h2 : datesSorted (e :: rest2) = true := by
        simp only [datesSorted, Bool.and_eq_true] at h
        exact h.2
      have hde : dateMax d e = e := by simp [dateMax, h1]
      calc specMaxDate (d :: e :: rest2)
          = some (List.foldl dateMax (dateMax d e) rest2) := rfl
        _ = some (List.foldl dateMax e rest2) := by rw [hde]
        _ = specMaxDate (e :: rest2) := rfl
        _ = (e :: rest2).getLast? := ih h2
        _ = (d :: e :: rest2).getLast? := by rw [List.getLast?_cons_cons]

/-- C1 (amended): on a successful full run whose enumeration yielded at
least one pair, the watermark value `dump_json` persists is the LAST
processing-date yielded by the enumeration (`self._dates[-1]`), for every
enumeration order; and whenever the enumeration yields processing-dates in
non-decreasing string order, that last date coincides with the maximum
processing-date observed. -/
theorem C1_amended_watermark_is_last_yielded_date (docs : List (String × String))
    (path : String) (fs : TextFS) (hne : docs ≠ []) :
    (dump_json_write_lastdate (download_pids docs).2 path fs).1 path
      = (download_pids docs).2.getLast? ∧
    (datesSorted (download_pids docs).2 = true →
      (download_pids docs).2.getLast? = specMaxDate (download_pids docs).2) := by
  have hne2 : (download_pids docs).2 ≠ [] := by
    simp only [download_pids, ne_eq, List.map_eq_nil_iff]
    exact hne
  obtain ⟨d, hd⟩ : ∃ d, (download_pids docs).2.getLast? = some d := by
    cases hgl : (download_pids docs).2.getLast? with
    | none => exact absurd (List.getLast?_eq_none_iff.mp hgl) hne2
    | some d => exact ⟨d, rfl⟩
  constructor
  · simp [dump_json_write_lastdate, hd]
  · intro hsorted
    rw [specMaxDate_sorted _ hsorted]

theorem C1_amended_watermark_is_last_yielded_date_witness :
    ((dump_json_write_lastdate
        (download_pids [("pidB", "2020-01-02"), ("pidA", "2020-01-01")]).2
        "lastdate.txt" (fun _ => none)).1 "lastdate.txt"
      = (download_pids [("pidB", "2020-01-02"), ("pidA", "2020-01-01")]).2.getLast?) ∧
    ((download_pids [("pidA", "2020-01-01"), ("pidB", "2020-01-02")]).2.getLast?
      = specMaxDate (download_pids [("pidA", "2020-01-01"), ("pidB", "2020-01-02")]).2) :=
  ⟨(C1_amended_watermark_is_last_yielded_date
      [("pidB", "2020-01-02"), ("pidA", "2020-01-01")] "lastdate.txt" (fun _ => none)
      (by decide)).1,
   (C1_amended_watermark_is_last_yielded_date
      [("pidA", "2020-01-01"), ("pidB", "2020-01-02")] "lastdate.txt" (fun _ => none)
      (by decide)).2 (by decide)⟩

theorem collectResults_no_interrupt (tasks : List (String × TaskOut)) :
    ∀ st : CollectState, (∀ t ∈ tasks, t.2 ≠ TaskOut.interrupt) →
      collectResults tasks st =
        (⟨st.processed + tasks.length,
          st.logged ++ (tasks.filter (fun t => t.2 == TaskOut.failure)).map (fun t => t.1)⟩,
         true) := by
  induction tasks with
  | nil => intro st _; simp [collectResults]
  | cons t rest ih =>
    intro st h
    obtain ⟨dest, out⟩ := t
    have hrest : ∀ t ∈ rest, t.2 ≠ TaskOut.interrupt :=
      fun t ht => h t (List.mem_cons_of_mem _ ht)
    cases out with
    | ok =>
      have step := ih ⟨st.processed + 1, st.logged⟩ hrest
      simp only [collectResults, step, List.filter_cons, List.length_cons,
        Prod.mk.injEq, CollectState.mk.injEq]
      refine ⟨⟨by omega, by simp⟩, trivial⟩
    | failure =>
      have step := ih ⟨st.processed + 1, st.logged ++ [dest]⟩ hrest
      simp only [collectResults, step, List.filter_cons, List.length_cons,
        Prod.mk.injEq, CollectState.mk.injEq]
      refine ⟨⟨by omega, by simp⟩, trivial⟩
    | interrupt =>
      exact absurd rfl (h (dest, TaskOut.interrupt) (List.mem_cons_self _ _))

/-- C9: when no completed task raises `KeyboardInterrupt`, the pipeline's
result-collection loop visits every task: each task exception is caught at
the task boundary and logged with that task's destination path, the loop
continues over all remaining tasks, and the run completes normally. -/
theorem C9_task_failures_are_logged_and_do_not_abort (tasks : List (String × TaskOut))
    (h : ∀ t ∈ tasks, t.2 ≠ TaskOut.interrupt) :
    collectResults tasks ⟨0, []⟩ =
      (⟨tasks.length,
        (tasks.filter (fun t => t.2 == TaskOut.failure)).map (fun t => t.1)⟩,
       true) := by
  have := collectResults_no_interrupt tasks ⟨0, []⟩ h
  simpa using this

theorem C9_task_failures_are_logged_and_do_not_abort_witness :
    collectResults
        [("colA/data/p1.json", TaskOut.ok), ("colA/data/p2.json", TaskOut.failure),
         ("colA/data/p3.json", TaskOut.ok)] ⟨0, []⟩
      = (⟨3, ["colA/data/p2.json"]⟩, true) :=
  C9_task_failures_are_logged_and_do_not_abort
    [("colA/data/p1.json", TaskOut.ok), ("colA/data/p2.json", TaskOut.failure),
     ("colA/data/p3.json", TaskOut.ok)] (by decide)

theorem sleeps_shift (b : ℚ) (r K : Nat) (sleeps : List ℚ) :
    (b ^ r :: sleeps).reverse ++ (List.range K).map (fun i => b ^ (r + 1 + i)) =
      sleeps.reverse ++ (List.range (K + 1)).map (fun i => b ^ (r + i)) := by
  have hf : ((fun i => b ^ (r + i)) ∘ Nat.succ) = fun i => b ^ (r + 1 + i) := by
    funext i
    simp only [Function.comp_apply]
    congr 1
    omega
  rw [List.range_succ_eq_map, List.map_cons, List.map_map, hf,
    List.reverse_cons, List.append_assoc, List.singleton_append]
  simp

theorem retryLoop_ok (op : Nat → Outcome) (caught : ErrKind → Bool) (b : ℚ) (m : Nat)
    (hc : caught .retryable = true) (v : List Nat) (K : Nat) :
    ∀ (fuel attempt retry : Nat) (sleeps : List ℚ),
      K < fuel → retry + K ≤ m + 1 →
      (∀ i, i < K → op (attempt + i) = .err .retryable) →
      op (attempt + K) = .ok v →
      retryLoop op caught b m fuel attempt retry sleeps =
        .success v (sleeps.reverse ++ (List.range K).map (fun i => b ^ (retry + i))) := by
  induction K with
  | zero =>
    intro fuel attempt retry sleeps hfuel _ _ hok
    obtain ⟨f, rfl⟩ : ∃ f, fuel = f + 1 := ⟨fuel - 1, by omega⟩
    rw [Nat.add_zero] at hok
    simp [retryLoop, hok]
  | succ K ih =>
    intro fuel attempt retry sleeps hfuel hret hfail hok
    obtain ⟨f, rfl⟩ : ∃ f, fuel = f + 1 := ⟨fuel - 1, by omega⟩
    have h0 : op attempt = .err .retryable := by
      have := hfail 0 (Nat.succ_pos K)
      rwa [Nat.add_zero] at this
    have hretle : retry ≤ m := by omega
    simp only [retryLoop, h0, hc, if_true]
    rw [if_pos hretle]
    rw [ih f (attempt + 1) (retry + 1) (b ^ retry :: sleeps) (by omega) (by omega)
      (fun i hi => by
        have := hfail (i + 1) (by omega)
        rwa [show attempt + (i + 1) = attempt + 1 + i by omega] at this)
      (by rwa [show attempt + 1 + K = attempt + (K + 1) by omega])]
    rw [sleeps_shift]

theorem retryLoop_exhaust (op : Nat → Outcome) (caught : ErrKind → Bool) (b : ℚ)
    (m : Nat) (e : ErrKind) (hc : caught e = true) (hop : ∀ i, op i = .err e) (n : Nat) :
    ∀ (fuel attempt retry : Nat) (sleeps : List ℚ),
      n < fuel → retry + n = m + 1 →
      retryLoop op caught b m fuel attempt retry sleeps =
        .raised e (sleeps.reverse ++ (List.range n).map (fun i => b ^ (retry + i))) := by
  induction n with
  | zero =>
    intro fuel attempt retry sleeps hfuel hr
    obtain ⟨f, rfl⟩ : ∃ f, fuel = f + 1 := ⟨fuel - 1, by omega⟩
    have hgt : ¬ retry ≤ m := by omega
    simp only [retryLoop, hop attempt, hc, if_true]
    rw [if_neg hgt]
    simp
  | succ n ih =>
    intro fuel attempt retry sleeps hfuel hr
    obtain ⟨f, rfl⟩ : ∃ f, fuel = f + 1 := ⟨fuel - 1, by omega⟩
    have hretle : retry ≤ m := by omega
    simp only [retryLoop, hop attempt, hc, if_true]
    rw [if_pos hretle]
    rw [ih f (attempt + 1) (retry + 1) (b ^ retry :: sleeps) (by omega) (by omega)]
    rw [sleeps_shift]

/-- C5: with the defaults (max_retries = 4, backoff factor 1.9, exc_list =
(RetryableError,)), an operation raising RetryableError on exactly its first
K invocations (K < max_retries) and then succeeding makes the wrapper return
the success result after exactly K sleeps of 1.9^1, ..., 1.9^K seconds, a
strictly increasing sequence; an operation raising NonRetryableError on its
first invocation makes the wrapper fail at once with zero sleeps. -/
theorem C5_retry_backoff (K : Nat) (v : List Nat) (op : Nat → Outcome)
    (hK : K < MAX_RETRIES)
    (hfail : ∀ i, i < K → op i = .err .retryable)
    (hok : op K = .ok v) :
    retry_gracefully op defaultCaught BACKOFF_FACTOR MAX_RETRIES
        = .success v ((List.range K).map (fun i => BACKOFF_FACTOR ^ (1 + i))) ∧
    ((List.range K).map (fun i => BACKOFF_FACTOR ^ (1 + i))).length = K ∧
    ((List.range K).map (fun i => BACKOFF_FACTOR ^ (1 + i))).Pairwise (· < ·) ∧
    (∀ op2 : Nat → Outcome, op2 0 = .err .nonRetryable →
      retry_gracefully op2 defaultCaught BACKOFF_FACTOR MAX_RETRIES
        = .raised .nonRetryable []) := by
  refine ⟨?_, by simp, ?_, ?_⟩
  · have := retryLoop_ok op defaultCaught BACKOFF_FACTOR MAX_RETRIES rfl v K
      (MAX_RETRIES + 1) 0 1 [] (by omega) (by omega)
      (fun i hi => by simpa using hfail i hi) (by simpa using hok)
    simpa [retry_gracefully] using this
  · refine List.Pairwise.map _ ?_ (List.pairwise_lt_range K)
    intro a c hac
    have hb : (1 : ℚ) < BACKOFF_FACTOR := by norm_num [BACKOFF_FACTOR]
    exact pow_lt_pow_right₀ hb (by omega)
  · intro op2 h2
    simp [retry_gracefully, retryLoop, h2, defaultCaught]

theorem C5_retry_backoff_witness :
    retry_gracefully (fun i => if i < 2 then Outcome.err .retryable else Outcome.ok [1])
        defaultCaught BACKOFF_FACTOR MAX_RETRIES
      = .success [1] ((List.range 2).map (fun i => BACKOFF_FACTOR ^ (1 + i))) :=
  (C5_retry_backoff 2 [1] (fun i => if i < 2 then Outcome.err .retryable else Outcome.ok [1])
    (by decide) (by decide) (by decide)).1

theorem get_response_eq (s : Nat) (body : List Nat) :
    get (.response s body) =
      if 400 ≤ s ∧ s < 500 then .nonRetryableError
      else if 500 ≤ s ∧ s < 600 then .retryableError
      else .ok body := by
  have hstep : get (.response s body) =
      (if (decide (400 ≤ s) && decide (s < 600)) = true then
        if 400 ≤ s ∧ s < 500 then GetResult.nonRetryableError
        else if 500 ≤ s ∧ s < 600 then GetResult.retryableError
        else GetResult.uncaught
      else GetResult.ok body) := rfl
  rw [hstep]
  by_cases h4 : 400 ≤ s ∧ s < 500
  · have hr : (decide (400 ≤ s) && decide (s < 600)) = true := by
      simp only [Bool.and_eq_true, decide_eq_true_eq]
      omega
    rw [hr, if_pos rfl, if_pos h4, if_pos h4]
  · by_cases h5 : 500 ≤ s ∧ s < 600
    · have hr : (decide (400 ≤ s) && decide (s < 600)) = true := by
        simp only [Bool.and_eq_true, decide_eq_true_eq]
        omega
      rw [hr, if_pos rfl, if_neg h4, if_pos h5, if_neg h4, if_pos h5]
    · have hr : (decide (400 ≤ s) && decide (s < 600)) = false := by
        simp only [Bool.and_eq_false_iff, decide_eq_false_iff_not]
        omega
      rw [hr]
      simp only [Bool.false_eq_true, if_false]
      rw [if_neg h4, if_neg h5]

/-- C6: a single attempt of `get` raises NonRetryableError exactly for the
malformed-URL exceptions (InvalidSchema, MissingSchema, InvalidURL) and 4xx
responses, raises RetryableError exactly for connection errors, timeouts and
5xx responses, and lets any other exception from the request propagate
unmodified; and exhausting the retries re-raises the last (retryable)
exception unmodified after the maximal number of sleeps. -/
theorem C6_get_error_classification :
    (∀ ev, get ev = .nonRetryableError ↔
        (ev = .invalidSchema ∨ ev = .missingSchema ∨ ev = .invalidURL ∨
          ∃ s body, ev = .response s body ∧ 400 ≤ s ∧ s < 500)) ∧
    (∀ ev, get ev = .retryableError ↔
        (ev = .connectionError ∨ ev = .timeout ∨
          ∃ s body, ev = .response s body ∧ 500 ≤ s ∧ s < 600)) ∧
    get .otherRequestError = .uncaught ∧
    (∀ op : Nat → Outcome, (∀ i, op i = .err .retryable) →
      retry_gracefully op defaultCaught BACKOFF_FACTOR MAX_RETRIES =
        .raised .retryable
          ((List.range MAX_RETRIES).map (fun i => BACKOFF_FACTOR ^ (1 + i)))) := by
  refine ⟨?_, ?_, rfl, ?_⟩
  · intro ev
    cases ev with
    | connectionError =>
      show GetResult.retryableError = GetResult.nonRetryableError ↔ _
      simp
    | timeout =>
      show GetResult.retryableError = GetResult.nonRetryableError ↔ _
      simp
    | invalidSchema =>
      show GetResult.nonRetryableError = GetResult.nonRetryableError ↔ _
      simp
    | missingSchema =>
      show GetResult.nonRetryableError = GetResult.nonRetryableError ↔ _
      simp
    | invalidURL =>
      show GetResult.nonRetryableError = GetResult.nonRetryableError ↔ _
      simp
    | otherRequestError =>
      show GetResult.uncaught = GetResult.nonRetryableError ↔ _
      simp
    | response s body =>
      rw [get_response_eq]
      split_ifs with h4 h5
      · simp [h4]
      · simp [h4]
      · simp [h4]
  · intro ev
    cases ev with
    | connectionError =>
      show GetResult.retryableError = GetResult.retryableError ↔ _
      simp
    | timeout =>
      show GetResult.retryableError = GetResult.retryableError ↔ _
      simp
    | invalidSchema =>
      show GetResult.nonRetryableError = GetResult.retryableError ↔ _
      simp
    | missingSchema =>
      show GetResult.nonRetryableError = GetResult.retryableError ↔ _
      simp
    | invalidURL =>
      show GetResult.nonRetryableError = GetResult.retryableError ↔ _
      simp
    | otherRequestError =>
      show GetResult.uncaught = GetResult.retryableError ↔ _
      simp
    | response s body =>
      rw [get_response_eq]
      split_ifs with h4 h5
      · simp
        omega
      · simp [h5]
      · simp [h5]
  · intro op hop
    have := retryLoop_exhaust op defaultCaught BACKOFF_FACTOR MAX_RETRIES .retryable rfl
      hop MAX_RETRIES (MAX_RETRIES + 1) 0 1 [] (by omega) (by omega)
    simpa [retry_gracefully] using this

theorem C6_get_error_classification_witness :
    retry_gracefully (fun _ => Outcome.err .retryable) defaultCaught BACKOFF_FACTOR
        MAX_RETRIES
      = .raised .retryable
          ((List.range MAX_RETRIES).map (fun i => BACKOFF_FACTOR ^ (1 + i))) :=
  C6_get_error_classification.2.2.2 (fun _ => Outcome.err .retryable) (fun _ => rfl)

theorem download_doc_preserves (fetch : String → Bytes) (url dest : String)
    (pn : Bool) (fs : FS) (p : String) (v : Bytes) (hp : fs p = some v) :
    (download_doc fetch url dest false false pn fs).1 p = some v := by
  unfold download_doc
  by_cases hd : (fs dest).isSome
  · simp [hd, hp]
  · simp only [Bool.false_eq_true, if_false, Bool.not_false, Bool.true_and, hd]
    split
    · exact hp
    · by_cases hpd : p = dest
      · subst hpd
        rw [hp] at hd
        simp at hd
      · simp [hpd, hp]

theorem dump_preserves (fetch : String → Bytes) (pn : Bool) :
    ∀ (l : List (String × String)) (fs : FS) (p : String) (v : Bytes),
      fs p = some v → (dump fetch false pn l fs).1 p = some v := by
  intro l
  induction l with
  | nil => intro fs p v hp; exact hp
  | cons t rest ih =>
    intro fs p v hp
    obtain ⟨url, dest⟩ := t
    simp only [dump]
    exact ih _ p v (download_doc_preserves fetch url dest pn fs p v hp)

theorem dump_missing_implies_null (fetch : String → Bytes) (pn : Bool) :
    ∀ (l : List (String × String)) (fs : FS) (url dest : String),
      (url, dest) ∈ l → (dump fetch false pn l fs).1 dest = none →
      pn = false ∧ (fetch url).length = 4 := by
  intro l
  induction l with
  | nil => intro fs url dest h _; exact absurd h (List.not_mem_nil _)
  | cons t rest ih =>
    intro fs url dest hmem hnone
    obtain ⟨u, d⟩ := t
    simp only [dump] at hnone
    rcases List.mem_cons.mp hmem with heq | hmem2
    · rw [Prod.mk.injEq] at heq
      obtain ⟨rfl, rfl⟩ := heq
      by_cases hd : (fs dest).isSome
      · have hstep : (download_doc fetch url dest false false pn fs).1 = fs := by
          unfold download_doc
          simp [hd]
        rw [hstep] at hnone
        obtain ⟨v, hv⟩ := Option.isSome_iff_exists.mp hd
        have hpres := dump_preserves fetch pn rest fs dest v hv
        rw [hpres] at hnone
        exact absurd hnone (Option.some_ne_none v)
      · by_cases hnull : (!pn && ((fetch url).length == 4)) = true
        · simp only [Bool.and_eq_true, Bool.not_eq_true', beq_iff_eq] at hnull
          exact hnull
        · have hstep : (download_doc fetch url dest false false pn fs).1 dest
              = some (fetch url) := by
            unfold download_doc
            simp [hd, hnull]
          have hpres := dump_preserves fetch pn rest _ dest (fetch url) hstep
          rw [hpres] at hnone
          exact absurd hnone (Option.some_ne_none _)
    · exact ih _ url dest hmem2 hnone

theorem dump_noop (fetch : String → Bytes) (pn : Bool) :
    ∀ (l : List (String × String)) (fs : FS),
      (∀ ud ∈ l, (fs ud.2).isSome = true ∨ (pn = false ∧ (fetch ud.1).length = 4)) →
      (dump fetch false pn l fs).1 = fs := by
  intro l
  induction l with
  | nil => intro fs _; rfl
  | cons t rest ih =>
    intro fs h
    obtain ⟨u, d⟩ := t
    have hstep : (download_doc fetch u d false false pn fs).1 = fs := by
      rcases h (u, d) (List.mem_cons_self _ _) with hs | ⟨hpn, hlen⟩
      · unfold download_doc
        simp [hs]
      · unfold download_doc
        by_cases hs : (fs d).isSome
        · simp [hs]
        · simp [hs, hpn, hlen]
    simp only [dump]
    rw [hstep]
    exact ih fs (fun ud hud => h ud (List.mem_cons_of_mem _ hud))

/-- C7: with `overwrite=False`, a task whose destination file exists makes no
network call and leaves the filesystem (hence the file's bytes) unchanged;
consequently the pipeline is idempotent: a second run over the same task
list leaves the file set of the first run exactly as it was. -/
theorem C7_existing_skip_and_idempotence (fetch : String → Bytes) (pn : Bool) :
    (∀ (url dest : String) (fs : FS) (v : Bytes), fs dest = some v →
        download_doc fetch url dest false false pn fs = (fs, 0)) ∧
    (∀ (l : List (String × String)) (fs : FS),
        (dump fetch false pn l (dump fetch false pn l fs).1).1
          = (dump fetch false pn l fs).1) := by
  constructor
  · intro url dest fs v hv
    unfold download_doc
    simp [hv]
  · intro l fs
    apply dump_noop
    intro ud hud
    cases hmem : (dump fetch false pn l fs).1 ud.2 with
    | some v => exact Or.inl (by simp [hmem])
    | none =>
      exact Or.inr
        (dump_missing_implies_null fetch pn l fs ud.1 ud.2 (by simpa using hud) hmem)

theorem C7_existing_skip_and_idempotence_witness :
    download_doc (fun _ => [7]) "api/article/?code=pid1" "colA/data/pid1.json"
        false false false (fun p => if p = "colA/data/pid1.json" then some [1, 2] else none)
      = ((fun p => if p = "colA/data/pid1.json" then some [1, 2] else none), 0) :=
  (C7_existing_skip_and_idempotence (fun _ => [7]) false).1 "api/article/?code=pid1"
    "colA/data/pid1.json" (fun p => if p = "colA/data/pid1.json" then some [1, 2] else none)
    [1, 2] (by decide)
